import Mathlib

/-! Verification of the compression subsystem of bcachefs-tools
(`libbcachefs/compress.c`).  The C functions are shallowly embedded as
executable Lean definitions; the external codec libraries (LZ4, zlib, zstd)
and the kernel memory pools are abstracted as oracle parameters, exactly as
the spec treats them as external collaborators.  Machine integers are
modelled as `Nat`/`Int`; sector size is 512 bytes. -/

/- Compression type ids, from `bcachefs_format.h` (`enum bch_compression_type`). -/

def BCH_COMPRESSION_NONE : Nat := 0

def BCH_COMPRESSION_LZ4_OLD : Nat := 1

def BCH_COMPRESSION_GZIP : Nat := 2

def BCH_COMPRESSION_LZ4 : Nat := 3

def BCH_COMPRESSION_ZSTD : Nat := 4

def BCH_COMPRESSION_NR : Nat := 5

/-- zlib return code `Z_STREAM_END` (zlib.h). -/
def Z_STREAM_END : Int := 1

/-- Filesystem-wide configuration consumed by compress.c:
`c->opts.block_size` and `c->sb.encoded_extent_max` are in sectors;
`workspaceInit ty` models `mempool_initialized(&c->compress_workspace[ty])`. -/
structure FsConf where
  blockSize : Nat
  encodedExtentMax : Nat
  workspaceInit : Nat → Bool

/-- `block_bytes(c) = block_size << 9`. -/
def blockBytes (c : FsConf) : Nat := c.blockSize * 512

/-- The fields of `struct bio` that compress.c reads: `bi_iter.bi_size`
(bytes), `bi_vcnt` and `bi_max_vecs`. -/
structure BioState where
  biSize : Nat
  biVcnt : Nat
  biMaxVecs : Nat
deriving DecidableEq

/-- `struct bch_extent_crc_unpacked`: sizes and offset in sectors, the
checksum split into its two 64-bit halves. -/
structure Crc where
  csumType : Nat
  compressionType : Nat
  compressedSize : Nat
  uncompressedSize : Nat
  liveSize : Nat
  offset : Nat
  csumLo : Nat
  csumHi : Nat
deriving DecidableEq

/-- Kernel `round_up(x, B)` for a power-of-two `B`, written arithmetically:
the least multiple of `B` that is `≥ x` (agrees with `((x-1)|(B-1))+1` for
power-of-two `B`, the only case the kernel macro supports). -/
def roundUp (x B : Nat) : Nat := x + (B - x % B) % B

/-- Kernel `round_down(x, B)` for a power-of-two `B`, written
arithmetically: `x - x % B` (agrees with `x & ~(B-1)` for power-of-two
`B`). -/
def roundDown (x B : Nat) : Nat := x - x % B

/-- Kernel `DIV_ROUND_UP`. -/
def divRoundUp (a b : Nat) : Nat := (a + b - 1) / b

/-- `PAGE_SECTORS` = 4096 / 512. -/
def PAGE_SECTORS : Nat := 8

/- ---------------------------------------------------------------------
Decompression (`__bio_uncompress`, lines 149–217).
--------------------------------------------------------------------- -/

/-- Little-endian 32-bit store, as `*((__le32 *) dst) = cpu_to_le32(len)`
lays the four bytes out in memory. -/
def le32enc (n : Nat) : List Nat :=
  [n % 256, n / 256 % 256, n / 65536 % 256, n / 16777216 % 256]

/-- Little-endian 32-bit load (`le32_to_cpup`) from the first four bytes. -/
def le32dec (bs : List Nat) : Nat :=
  bs.getD 0 0 + 256 * bs.getD 1 0 + 65536 * bs.getD 2 0 + 16777216 * bs.getD 3 0

/-- The length prefix the zstd branch reads: `src_len = le32_to_cpup(src_data.b)`. -/
def zstdStoredLen (src : List Nat) : Nat := le32dec (src.take 4)

/-- The byte range `__bio_uncompress` hands to `ZSTD_decompressDCtx`:
`src_data.b + 4` for `src_len` bytes.  (In the list model `take` stops at
the end of the buffer; the caller checks the span separately, because in C
an over-long span is an out-of-bounds read.) -/
def zstdDecoderInput (src : List Nat) : List Nat :=
  (src.drop 4).take (zstdStoredLen src)

/-- Outcomes of the codec libraries, abstracted as oracles:
`lz4Dec src srcLen dstLen` is the return of `LZ4_decompress_safe_partial`;
`zlibInflate src srcLen dstLen` is the return of `zlib_inflate(.., Z_FINISH)`;
`zstdDec frame dstLen` is the return of `ZSTD_decompressDCtx` on exactly
the bytes `frame`. -/
structure DecompOracles where
  lz4Dec : List Nat → Nat → Nat → Int
  zlibInflate : List Nat → Nat → Nat → Int
  zstdDec : List Nat → Nat → Nat

/-- Result of `__bio_uncompress`: `ok` is return 0, `eio` is return `-EIO`;
`oobRead` marks an input on which the C code reads past the end of the
source buffer (undefined behaviour, no defined return value); `bug` is a
`BUG()` (the function does not return). -/
inductive UncompressRes
  | ok
  | eio
  | oobRead
  | bug
deriving DecidableEq

/-- `__bio_uncompress` (compress.c:149).  `src` is the mapped source
buffer, `src->bi_iter.bi_size = src.length`; `dst_len =
crc.uncompressed_size << 9`.  Workspace mempool borrowing is elided (it
always succeeds with `GFP_NOIO`). -/
def bioUncompress (o : DecompOracles) (c : FsConf) (src : List Nat) (crc : Crc) :
    UncompressRes :=
  let srcLen := src.length
  let dstLen := crc.uncompressedSize * 512
  if crc.compressionType = BCH_COMPRESSION_LZ4_OLD ∨
     crc.compressionType = BCH_COMPRESSION_LZ4 then
    -- ret = LZ4_decompress_safe_partial(...); if (ret != dst_len) goto err;
    if o.lz4Dec src srcLen dstLen = (dstLen : Int) then .ok else .eio
  else if crc.compressionType = BCH_COMPRESSION_GZIP then
    -- zlib_inflate(&strm, Z_FINISH); if (ret != Z_STREAM_END) goto err;
    if o.zlibInflate src srcLen dstLen = Z_STREAM_END then .ok else .eio
  else if crc.compressionType = BCH_COMPRESSION_ZSTD then
    -- src_len = le32_to_cpup(src_data.b): reading the prefix itself needs 4 bytes
    if src.length < 4 then .oobRead
    -- ZSTD_decompressDCtx(ctx, dst, dst_len, src_data.b + 4, src_len):
    -- the decoder may read src_len bytes starting at offset 4; compress.c
    -- performs no check that they lie inside the source buffer
    else if src.length < 4 + zstdStoredLen src then .oobRead
    else if o.zstdDec (zstdDecoderInput src) dstLen = dstLen then .ok else .eio
  else .bug

/-- C1: for a zstd extent whose stored 4-byte little-endian length prefix
(here 100) exceeds the remaining bytes of the source buffer (here 4),
`__bio_uncompress` does not return `-EIO`: it passes the oversized length
straight to `ZSTD_decompressDCtx`, which reads past the end of the source
buffer.  The claimed bounds check does not exist in the code. -/
theorem c1_zstd_len_overrun_oob :
    bioUncompress ⟨fun _ _ _ => 0, fun _ _ _ => 0, fun _ _ => 0⟩
      ⟨1, 128, fun _ => true⟩ [100, 0, 0, 0, 9, 9, 9, 9]
      ⟨0, BCH_COMPRESSION_ZSTD, 1, 1, 1, 0, 0, 0⟩ = UncompressRes.oobRead := by
  decide

/-- Success criterion of each codec branch of `__bio_uncompress`, as the
code tests it: LZ4 must produce exactly `dst_len` bytes, zlib must end
with `Z_STREAM_END`, zstd must report exactly `dst_len` bytes. -/
def decodeOk (o : DecompOracles) (src : List Nat) (crc : Crc) : Bool :=
  let srcLen := src.length
  let dstLen := crc.uncompressedSize * 512
  if crc.compressionType = BCH_COMPRESSION_LZ4_OLD ∨
     crc.compressionType = BCH_COMPRESSION_LZ4 then
    o.lz4Dec src srcLen dstLen = (dstLen : Int)
  else if crc.compressionType = BCH_COMPRESSION_GZIP then
    o.zlibInflate src srcLen dstLen = Z_STREAM_END
  else if crc.compressionType = BCH_COMPRESSION_ZSTD then
    o.zstdDec (zstdDecoderInput src) dstLen = dstLen
  else false

/-- C3 (counterexample): the claimed success-or-`-EIO` dichotomy fails as
stated.  For a zstd extent whose stored length prefix (9) overruns the
6-byte source buffer, the code neither succeeds nor returns `-EIO`: it
performs an out-of-bounds read (the same defect as C1). -/
theorem c3_zstd_oob_breaks_dichotomy :
    bioUncompress ⟨fun _ _ _ => 0, fun _ _ _ => 0, fun _ _ => 0⟩
        ⟨1, 128, fun _ => true⟩ [9, 0, 0, 0, 1, 2]
        ⟨0, BCH_COMPRESSION_ZSTD, 1, 1, 1, 0, 0, 0⟩ ≠ UncompressRes.ok ∧
    bioUncompress ⟨fun _ _ _ => 0, fun _ _ _ => 0, fun _ _ => 0⟩
        ⟨1, 128, fun _ => true⟩ [9, 0, 0, 0, 1, 2]
        ⟨0, BCH_COMPRESSION_ZSTD, 1, 1, 1, 0, 0, 0⟩ ≠ UncompressRes.eio := by
  decide

/-- C3 (amended): for every supported codec — with the proviso, forced by
the counterexample, that a zstd extent's stored length prefix lies within
the source buffer — `__bio_uncompress` either returns success with the
codec's exact-fit criterion satisfied, or returns the single recoverable
error `-EIO`: LZ4 succeeds only when exactly `dst_len` bytes were
produced, deflate only on an end-of-stream result, zstd only when the
decoder reports exactly `dst_len` bytes. -/
theorem c3_decode_dichotomy (o : DecompOracles) (c : FsConf) (src : List Nat)
    (crc : Crc)
    (hsup : crc.compressionType = BCH_COMPRESSION_LZ4_OLD ∨
            crc.compressionType = BCH_COMPRESSION_LZ4 ∨
            crc.compressionType = BCH_COMPRESSION_GZIP ∨
            crc.compressionType = BCH_COMPRESSION_ZSTD)
    (hz : crc.compressionType = BCH_COMPRESSION_ZSTD →
            4 + zstdStoredLen src ≤ src.length) :
    (bioUncompress o c src crc = UncompressRes.ok ∧ decodeOk o src crc = true) ∨
    (bioUncompress o c src crc = UncompressRes.eio ∧ decodeOk o src crc = false) := by
  rcases hsup with h | h | h | h
  · by_cases h2 : o.lz4Dec src src.length (crc.uncompressedSize * 512) =
        (crc.uncompressedSize : Int) * 512
    · left
      constructor <;> simp [bioUncompress, decodeOk, h, h2]
    · right
      constructor <;> simp [bioUncompress, decodeOk, h, h2]
  · by_cases h2 : o.lz4Dec src src.length (crc.uncompressedSize * 512) =
        (crc.uncompressedSize : Int) * 512
    · left
      constructor <;> simp [bioUncompress, decodeOk, h, h2]
    · right
      constructor <;> simp [bioUncompress, decodeOk, h, h2]
  · by_cases h2 : o.zlibInflate src src.length (crc.uncompressedSize * 512) =
        Z_STREAM_END
    · left
      constructor <;>
        simp [bioUncompress, decodeOk, h, h2, BCH_COMPRESSION_GZIP,
              BCH_COMPRESSION_LZ4_OLD, BCH_COMPRESSION_LZ4]
    · right
      constructor <;>
        simp [bioUncompress, decodeOk, h, h2, BCH_COMPRESSION_GZIP,
              BCH_COMPRESSION_LZ4_OLD, BCH_COMPRESSION_LZ4]
  · have hlen := hz h
    have h4 : ¬ src.length < 4 := by omega
    have h5 : ¬ src.length < 4 + zstdStoredLen src := by omega
    by_cases h2 : o.zstdDec (zstdDecoderInput src) (crc.uncompressedSize * 512) =
        crc.uncompressedSize * 512
    · left
      constructor <;>
        simp [bioUncompress, decodeOk, h, h2, h4, h5, BCH_COMPRESSION_ZSTD,
              BCH_COMPRESSION_LZ4_OLD, BCH_COMPRESSION_LZ4, BCH_COMPRESSION_GZIP]
    · right
      constructor <;>
        simp [bioUncompress, decodeOk, h, h2, h4, h5, BCH_COMPRESSION_ZSTD,
              BCH_COMPRESSION_LZ4_OLD, BCH_COMPRESSION_LZ4, BCH_COMPRESSION_GZIP]

/-- C3 witness: the dichotomy theorem applied to a concrete LZ4 extent
whose decoder produces exactly the target length. -/
theorem c3_decode_dichotomy_witness :
    (bioUncompress ⟨fun _ _ d => (d : Int), fun _ _ _ => 0, fun _ _ => 0⟩
         ⟨1, 128, fun _ => true⟩ [7, 7, 7]
         ⟨0, BCH_COMPRESSION_LZ4, 1, 1, 1, 0, 0, 0⟩ = UncompressRes.ok ∧
       decodeOk ⟨fun _ _ d => (d : Int), fun _ _ _ => 0, fun _ _ => 0⟩ [7, 7, 7]
         ⟨0, BCH_COMPRESSION_LZ4, 1, 1, 1, 0, 0, 0⟩ = true) ∨
    (bioUncompress ⟨fun _ _ d => (d : Int), fun _ _ _ => 0, fun _ _ => 0⟩
         ⟨1, 128, fun _ => true⟩ [7, 7, 7]
         ⟨0, BCH_COMPRESSION_LZ4, 1, 1, 1, 0, 0, 0⟩ = UncompressRes.eio ∧
       decodeOk ⟨fun _ _ d => (d : Int), fun _ _ _ => 0, fun _ _ => 0⟩ [7, 7, 7]
         ⟨0, BCH_COMPRESSION_LZ4, 1, 1, 1, 0, 0, 0⟩ = false) :=
  c3_decode_dichotomy _ _ _ _ (by decide) (by decide)

/- ---------------------------------------------------------------------
`bch2_bio_uncompress_inplace` (compress.c:219).
--------------------------------------------------------------------- -/

/-- Result of `bch2_bio_uncompress_inplace`: a returned code together with
the final `*crc`, or a crash (`BUG`) / out-of-bounds read that never
returns. -/
inductive InplaceRes
  | ret (code : Int) (crc : Crc)
  | oobRead
  | bug
deriving DecidableEq

/-- `bch2_bio_uncompress_inplace`.  `src` is the bio's mapped content; the
copy of the decompressed bytes back into the bio (`memcpy_to_bio`) is
elided, only sizes and metadata are tracked. -/
def bioUncompressInplace (o : DecompOracles) (c : FsConf) (bio : BioState)
    (src : List Nat) (crc : Crc) : InplaceRes :=
  -- BUG_ON(!bio->bi_vcnt)
  if bio.biVcnt = 0 then .bug
  -- BUG_ON(DIV_ROUND_UP(crc->live_size, PAGE_SECTORS) > bio->bi_max_vecs)
  else if bio.biMaxVecs < divRoundUp crc.liveSize PAGE_SECTORS then .bug
  else if c.encodedExtentMax < crc.uncompressedSize ∨
          c.encodedExtentMax < crc.compressedSize then
    .ret (-5) crc
  else
    match bioUncompress o c src crc with
    | .ok =>
        .ret 0 { crc with csumType := 0, compressionType := 0,
                          compressedSize := crc.liveSize,
                          uncompressedSize := crc.liveSize,
                          offset := 0, csumLo := 0, csumHi := 0 }
    | .eio => .ret (-5) crc
    | .oobRead => .oobRead
    | .bug => .bug

/-- C10: whenever `bch2_bio_uncompress_inplace` returns, a nonzero return
code (oversized extent or decompression error) leaves the caller's `*crc`
exactly as it was, and the metadata fields are rewritten (checksum and
compression cleared, both sizes set to `live_size`, offset zeroed) only on
the zero return. -/
theorem c10_crc_unchanged_on_error (o : DecompOracles) (c : FsConf)
    (bio : BioState) (src : List Nat) (crc : Crc) (code : Int) (crc2 : Crc)
    (h : bioUncompressInplace o c bio src crc = InplaceRes.ret code crc2) :
    (code ≠ 0 → crc2 = crc) ∧
    (code = 0 →
      crc2 = { crc with csumType := 0, compressionType := 0,
                        compressedSize := crc.liveSize,
                        uncompressedSize := crc.liveSize,
                        offset := 0, csumLo := 0, csumHi := 0 }) := by
  unfold bioUncompressInplace at h
  split at h
  · cases h
  · split at h
    · cases h
    · split at h
      · injection h with h1 h2
        exact ⟨fun _ => h2.symm, fun h0 => absurd (h1 ▸ h0) (by decide)⟩
      · split at h
        · injection h with h1 h2
          exact ⟨fun hne => absurd h1.symm hne, fun _ => h2.symm⟩
        · injection h with h1 h2
          exact ⟨fun _ => h2.symm, fun h0 => absurd (h1 ▸ h0) (by decide)⟩
        · cases h
        · cases h

/-- C10 witness: the theorem applied to a concrete oversized extent
(`uncompressed_size` 256 > `encoded_extent_max` 128), which returns `-EIO`
with the metadata untouched. -/
theorem c10_crc_unchanged_on_error_witness :
    ((-5 : Int) ≠ 0 →
      (⟨0, 4, 1, 256, 1, 0, 0, 0⟩ : Crc) = ⟨0, 4, 1, 256, 1, 0, 0, 0⟩) ∧
    ((-5 : Int) = 0 →
      (⟨0, 4, 1, 256, 1, 0, 0, 0⟩ : Crc) = ⟨0, 0, 1, 1, 1, 0, 0, 0⟩) :=
  c10_crc_unchanged_on_error ⟨fun _ _ _ => 0, fun _ _ _ => 0, fun _ _ => 0⟩
    ⟨1, 128, fun _ => true⟩ ⟨512, 1, 8⟩ [1, 2, 3]
    ⟨0, 4, 1, 256, 1, 0, 0, 0⟩ (-5) ⟨0, 4, 1, 256, 1, 0, 0, 0⟩ (by decide)

/- ---------------------------------------------------------------------
Adaptive compression: the shrink-to-fit loop of `__bio_compress`
(compress.c:377–409).
--------------------------------------------------------------------- -/

/-- Outcome of the `while (1)` loop of `__bio_compress`: `success d s` is
the `ret > 0` break (`*dst_len := ret`) with consumed source length `s`;
`incompressible s` is a `ret = -1` break; `bug` is the firing of
`BUG_ON(-ret >= *src_len)`. -/
inductive LoopRes
  | success (dstLen srcLen : Nat)
  | incompressible (srcLen : Nat)
  | bug
deriving DecidableEq

/-- The shrink-to-fit loop, fuel-indexed.  `f srcLen dstLen` is the oracle
for `attempt_compress`: positive means the attempt fit and is the output
length, negative is LZ4's hint of how much source would fit, zero is a
plain failure.  `B` is `block_bytes(c)`; `dstLen` is the fixed destination
budget.  `none` means the fuel ran out with the C loop still running. -/
def compressLoop (f : Nat → Nat → Int) (B dstLen : Nat) :
    Nat → Nat → Option LoopRes
  | 0, _ => none
  | fuel + 1, srcLen =>
    -- if (*src_len <= block_bytes(c)) { ret = -1; break; }
    if srcLen ≤ B then some (LoopRes.incompressible srcLen)
    -- if (ret > 0) { *dst_len = ret; ret = 0; break; }
    else if 0 < f srcLen dstLen then
      some (LoopRes.success (f srcLen dstLen).toNat srcLen)
    -- if (*src_len <= *dst_len) { ret = -1; break; }
    else if srcLen ≤ dstLen then some (LoopRes.incompressible srcLen)
    -- BUG_ON(-ret >= *src_len)
    else if srcLen ≤ (-(f srcLen dstLen)).toNat then some LoopRes.bug
    -- if (ret < 0) *src_len = -ret; else *src_len -= (*src_len - *dst_len) / 2;
    -- *src_len = round_down(*src_len, block_bytes(c));
    else
      compressLoop f B dstLen fuel
        (roundDown (if f srcLen dstLen < 0 then (-(f srcLen dstLen)).toNat
                    else srcLen - (srcLen - dstLen) / 2) B)

theorem roundDown_le (x B : Nat) : roundDown x B ≤ x := Nat.sub_le x (x % B)

theorem le_roundUp (x B : Nat) : x ≤ roundUp x B := Nat.le_add_right x _

/-- One failed attempt strictly shrinks the attempt size — to the codec's
hint when one was reported, else by half the gap to the budget — provided
the budget is block-aligned and a block is at least 2 bytes. -/
theorem shrink_lt (B dstLen srcLen : Nat) (r : Int) (hB : 2 ≤ B)
    (hdvd : B ∣ dstLen) (hBs : B < srcLen) (hds : dstLen < srcLen)
    (hbug : (-r).toNat < srcLen) :
    roundDown (if r < 0 then (-r).toNat else srcLen - (srcLen - dstLen) / 2) B
      < srcLen := by
  split
  · exact lt_of_le_of_lt (roundDown_le _ _) hbug
  · by_cases h2 : 2 ≤ srcLen - dstLen
    · have h3 : 1 ≤ (srcLen - dstLen) / 2 := by omega
      exact lt_of_le_of_lt (roundDown_le _ _) (by omega)
    · have hmod : srcLen % B = 1 := by
        rcases hdvd with ⟨k, hk⟩
        have hsd : srcLen = B * k + 1 := by omega
        rw [hsd, Nat.mul_add_mod]
        exact Nat.mod_eq_of_lt (by omega)
      have harg : srcLen - (srcLen - dstLen) / 2 = srcLen := by omega
      rw [harg]
      unfold roundDown
      rw [hmod]
      omega

/-- With a block-aligned budget, fuel `srcLen + 1` suffices for the loop
to exit. -/
theorem compressLoop_isSome_of_lt (f : Nat → Nat → Int) (B dstLen : Nat)
    (hB : 2 ≤ B) (hdvd : B ∣ dstLen) :
    ∀ fuel srcLen, srcLen < fuel → (compressLoop f B dstLen fuel srcLen).isSome := by
  intro fuel
  induction fuel with
  | zero => intro s hs; omega
  | succ k ih =>
    intro s hs
    simp only [compressLoop]
    by_cases h1 : s ≤ B
    · simp [h1]
    by_cases h2 : 0 < f s dstLen
    · simp [h1, h2]
    by_cases h3 : s ≤ dstLen
    · simp [h1, h2, h3]
    by_cases h4 : s ≤ (-(f s dstLen)).toNat
    · simp [h1, h2, h3, h4]
    simp only [if_neg h1, if_neg h2, if_neg h3, if_neg h4]
    apply ih
    have hlt := shrink_lt B dstLen s (f s dstLen) hB hdvd (by omega) (by omega)
      (by omega)
    omega

/-- The C loop exits within some finite number of iterations. -/
def LoopTerminates (f : Nat → Nat → Int) (B dstLen srcLen : Nat) : Prop :=
  ∃ fuel, (compressLoop f B dstLen fuel srcLen).isSome

/-- At block size 512, budget 1023 and attempt size 1024, a codec that
never fits leaves the loop in the same state forever:
`1024 - (1024 - 1023)/2 = 1024` and `round_down(1024, 512) = 1024`. -/
theorem compressLoop_stuck :
    ∀ fuel, compressLoop (fun _ _ => 0) 512 1023 fuel 1024 = none := by
  intro fuel
  induction fuel with
  | zero => rfl
  | succ k ih =>
    have hstep : compressLoop (fun _ _ => 0) 512 1023 (k + 1) 1024 =
        compressLoop (fun _ _ => 0) 512 1023 k 1024 := rfl
    rw [hstep, ih]

/-- C4 (counterexample): the shrink-to-fit loop does not terminate for
every source buffer, destination capacity and codec.  With block size 512
bytes, a 1024-byte source, a 1023-byte destination budget and a codec that
never fits, the halving step is `(1024 - 1023)/2 = 0` and `round_down`
leaves the already-aligned 1024 unchanged, so the attempt size never
decreases and never reaches one block. -/
theorem c4_loop_can_diverge : ¬ LoopTerminates (fun _ _ => 0) 512 1023 1024 := by
  rintro ⟨fuel, hsome⟩
  rw [compressLoop_stuck fuel] at hsome
  simp at hsome

/-- C4 (amended): provided the destination budget is a multiple of the
block size — as every real caller's is, bio sizes being block-aligned —
and a block is at least 2 bytes (it is at least 512), the loop terminates:
every failed attempt either strictly decreases the attempt size (to the
codec's hint, or by half the gap to the budget, rounded down to the block
size) or exits the loop, until the attempt size reaches one block and
Incompressible is returned. -/
theorem c4_loop_terminates_aligned (f : Nat → Nat → Int) (B dstLen srcLen : Nat)
    (hB : 2 ≤ B) (hdvd : B ∣ dstLen) : LoopTerminates f B dstLen srcLen :=
  ⟨srcLen + 1,
    compressLoop_isSome_of_lt f B dstLen hB hdvd (srcLen + 1) srcLen (by omega)⟩

/-- C4 witness: the amended theorem at block 512, aligned budget 1024,
source 2048, with a codec that never fits. -/
theorem c4_loop_terminates_witness :
    LoopTerminates (fun _ _ => 0) 512 1024 2048 :=
  c4_loop_terminates_aligned (fun _ _ => 0) 512 1024 2048 (by decide) ⟨2, rfl⟩

/-- Loop-success inversion: a `success d s` exit happened at the iteration
whose attempt size was `s`, with `d` the positive value the codec
returned. -/
theorem compressLoop_success_inv (f : Nat → Nat → Int) (B dstLen : Nat) :
    ∀ fuel srcLen d s,
      compressLoop f B dstLen fuel srcLen = some (LoopRes.success d s) →
      0 < f s dstLen ∧ d = (f s dstLen).toNat := by
  intro fuel
  induction fuel with
  | zero => intro srcLen d s h; cases h
  | succ k ih =>
    intro srcLen d s h
    simp only [compressLoop] at h
    by_cases h1 : srcLen ≤ B
    · rw [if_pos h1] at h; simp at h
    rw [if_neg h1] at h
    by_cases h2 : 0 < f srcLen dstLen
    · rw [if_pos h2] at h
      simp only [Option.some_inj, LoopRes.success.injEq] at h
      obtain ⟨hd, hs⟩ := h
      subst hs
      exact ⟨h2, hd.symm⟩
    rw [if_neg h2] at h
    by_cases h3 : srcLen ≤ dstLen
    · rw [if_pos h3] at h; simp at h
    rw [if_neg h3] at h
    by_cases h4 : srcLen ≤ (-(f srcLen dstLen)).toNat
    · rw [if_pos h4] at h; simp at h
    rw [if_neg h4] at h
    exact ih _ d s h

/-- Final result of `__bio_compress`: returned compression type, the
out-params `*dst_len` and `*src_len`, and the padded destination content
(empty on paths that never write the destination through).  `bug` is a
fired `BUG_ON`. -/
inductive CompressResult
  | done (compressionType dstLen srcLen : Nat) (dstBytes : List Nat)
  | bug
deriving DecidableEq

/-- The tail of `__bio_compress` after the loop (compress.c:413–438): the
error exit, the "didn't get smaller" check, zero-padding to the next block
multiple, and the four pre-return `BUG_ON` assertions (a fired assertion
never returns).  `g s` is the destination content produced by the
successful attempt at source length `s`. -/
def bioCompressFinish (g : Nat → List Nat) (B dstCap srcCap ct : Nat) :
    LoopRes → CompressResult
  | LoopRes.bug => CompressResult.bug
  | LoopRes.incompressible s => CompressResult.done 0 dstCap s []
  | LoopRes.success d s =>
    -- if (round_up(*dst_len, block_bytes(c)) >= *src_len) goto err;
    if s ≤ roundUp d B then CompressResult.done 0 d s []
    -- pad = round_up(*dst_len, block_bytes(c)) - *dst_len;
    -- memset(dst_data.b + *dst_len, 0, pad); *dst_len += pad;
    -- BUG_ON(!*dst_len || *dst_len > dst->bi_iter.bi_size);
    else if d + (roundUp d B - d) = 0 ∨ dstCap < d + (roundUp d B - d) then
      CompressResult.bug
    -- BUG_ON(!*src_len || *src_len > src->bi_iter.bi_size);
    else if s = 0 ∨ srcCap < s then CompressResult.bug
    -- BUG_ON(*dst_len & (block_bytes(c) - 1));
    else if ¬ (d + (roundUp d B - d)) % B = 0 then CompressResult.bug
    -- BUG_ON(*src_len & (block_bytes(c) - 1));
    else if ¬ s % B = 0 then CompressResult.bug
    else
      CompressResult.done ct (d + (roundUp d B - d)) s
        (g s ++ List.replicate (roundUp d B - d) 0)

/-- `__bio_compress` (compress.c:348): entry assertions, the one-block
early return, the shrink-to-fit loop, and the post-loop finish.  `fuel`
bounds the loop (`none` = the C loop is still running); `dstLenVar` and
`srcLenVar` are the values of the caller's out-params, which the early
return leaves unwritten. -/
def bioCompress (f : Nat → Nat → Int) (g : Nat → List Nat) (c : FsConf)
    (dst src : BioState) (dstLenVar srcLenVar ct fuel : Nat) :
    Option CompressResult :=
  -- BUG_ON(compression_type >= BCH_COMPRESSION_NR);
  if BCH_COMPRESSION_NR ≤ ct then some CompressResult.bug
  -- BUG_ON(!mempool_initialized(&c->compress_workspace[compression_type]));
  else if c.workspaceInit ct = false then some CompressResult.bug
  -- if (bio_sectors(src) <= c->opts.block_size) return 0;
  else if src.biSize / 512 ≤ c.blockSize then
    some (CompressResult.done 0 dstLenVar srcLenVar [])
  -- *src_len = src->bi_iter.bi_size; *dst_len = dst->bi_iter.bi_size; loop
  else
    (compressLoop f (blockBytes c) dst.biSize fuel src.biSize).map
      (bioCompressFinish g (blockBytes c) dst.biSize src.biSize ct)

/-- C6: when the loop exits with a successful attempt whose block-aligned
output size is not strictly smaller than the block-aligned consumed-source
size, `__bio_compress` declares Incompressible: it returns compression
type 0 (the code compares `round_up(*dst_len, B) >= *src_len`, which for a
multiple of `B` is equivalent to `>= round_up(*src_len, B)`). -/
theorem c6_not_smaller_incompressible (f : Nat → Nat → Int) (g : Nat → List Nat)
    (c : FsConf) (dst src : BioState) (dlv slv ct fuel d s : Nat)
    (hct : ct < BCH_COMPRESSION_NR) (hws : c.workspaceInit ct = true)
    (hbig : c.blockSize < src.biSize / 512)
    (hloop : compressLoop f (blockBytes c) dst.biSize fuel src.biSize =
      some (LoopRes.success d s))
    (hge : roundUp s (blockBytes c) ≤ roundUp d (blockBytes c)) :
    bioCompress f g c dst src dlv slv ct fuel =
      some (CompressResult.done 0 d s []) := by
  have hs : s ≤ roundUp d (blockBytes c) :=
    le_trans (le_roundUp s (blockBytes c)) hge
  unfold bioCompress
  rw [if_neg (by omega), if_neg (by simp [hws]), if_neg (by omega), hloop]
  simp [bioCompressFinish, if_pos hs]

/-- C6 witness: the theorem at block 512, a 1024-byte source and a codec
whose successful attempt produces 1024 bytes — no saving, so type 0. -/
theorem c6_not_smaller_incompressible_witness :
    bioCompress (fun _ _ => 1024) (fun _ => List.replicate 1024 7)
      ⟨1, 128, fun _ => true⟩ ⟨1024, 1, 8⟩ ⟨1024, 1, 8⟩ 3 9 4 1 =
      some (CompressResult.done 0 1024 1024 []) :=
  c6_not_smaller_incompressible (fun _ _ => 1024) (fun _ => List.replicate 1024 7)
    ⟨1, 128, fun _ => true⟩ ⟨1024, 1, 8⟩ ⟨1024, 1, 8⟩ 3 9 4 1 1024 1024
    (by decide) (by decide) (by decide) (by decide) (by decide)

/-- C8: for every input of at most one block, `__bio_compress` returns
Incompressible (compression type 0) before mapping the buffers or invoking
any codec: the result does not depend on the codec oracles at all, and the
caller's out-params are left unwritten. -/
theorem c8_small_input_incompressible (f : Nat → Nat → Int) (g : Nat → List Nat)
    (c : FsConf) (dst src : BioState) (dlv slv ct fuel : Nat)
    (hsmall : src.biSize ≤ blockBytes c)
    (hct : ct < BCH_COMPRESSION_NR) (hws : c.workspaceInit ct = true) :
    bioCompress f g c dst src dlv slv ct fuel =
      some (CompressResult.done 0 dlv slv []) ∧
    ∀ f2 g2, bioCompress f2 g2 c dst src dlv slv ct fuel =
      some (CompressResult.done 0 dlv slv []) := by
  simp only [blockBytes] at hsmall
  have hsec : src.biSize / 512 ≤ c.blockSize := by
    have h1 : src.biSize / 512 ≤ c.blockSize * 512 / 512 :=
      Nat.div_le_div_right hsmall
    rwa [Nat.mul_div_cancel _ (by norm_num)] at h1
  refine ⟨?_, fun f2 g2 => ?_⟩ <;>
    · unfold bioCompress
      rw [if_neg (by omega), if_neg (by simp [hws]), if_pos hsec]

/-- C8 witness: a 1024-byte (2-sector) source at block size 2 sectors,
out-params 7 and 9 passed through untouched. -/
theorem c8_small_input_incompressible_witness :
    bioCompress (fun _ _ => 77) (fun _ => [1, 2, 3])
      ⟨2, 128, fun _ => true⟩ ⟨1024, 1, 8⟩ ⟨1024, 1, 8⟩ 7 9 3 5 =
      some (CompressResult.done 0 7 9 []) :=
  (c8_small_input_incompressible (fun _ _ => 77) (fun _ => [1, 2, 3])
    ⟨2, 128, fun _ => true⟩ ⟨1024, 1, 8⟩ ⟨1024, 1, 8⟩ 7 9 3 5
    (by decide) (by decide) (by decide)).1

/-- C5: whenever `__bio_compress` returns a non-Incompressible result, the
output was zero-padded up to the next block multiple, and the returned
lengths satisfy the pre-return invariants: output length nonzero, at most
the destination capacity, block-aligned; consumed source length nonzero,
at most the source capacity, block-aligned.  `hg` is the codec contract
that a successful attempt wrote exactly as many bytes as it reported. -/
theorem c5_success_invariants (f : Nat → Nat → Int) (g : Nat → List Nat)
    (c : FsConf) (dst src : BioState) (dlv slv ct fuel ct2 d2 s2 : Nat)
    (bytes : List Nat)
    (hg : ∀ s, 0 < f s dst.biSize → (g s).length = (f s dst.biSize).toNat)
    (hres : bioCompress f g c dst src dlv slv ct fuel =
      some (CompressResult.done ct2 d2 s2 bytes))
    (hct2 : ct2 ≠ 0) :
    0 < d2 ∧ d2 ≤ dst.biSize ∧ d2 % blockBytes c = 0 ∧
    0 < s2 ∧ s2 ≤ src.biSize ∧ s2 % blockBytes c = 0 ∧
    bytes.length = d2 ∧
    (∃ produced pad, bytes = produced ++ List.replicate pad 0 ∧
      produced.length + pad = d2 ∧
      d2 = roundUp produced.length (blockBytes c)) := by
  unfold bioCompress at hres
  split at hres
  · simp at hres
  split at hres
  · simp at hres
  split at hres
  · simp only [Option.some_inj, CompressResult.done.injEq] at hres
    exact absurd hres.1.symm hct2
  cases hl : compressLoop f (blockBytes c) dst.biSize fuel src.biSize with
  | none => rw [hl] at hres; simp at hres
  | some lr =>
    rw [hl] at hres
    cases lr with
    | bug => simp [bioCompressFinish] at hres
    | incompressible s0 =>
      simp only [Option.map_some', Option.some_inj, bioCompressFinish,
        CompressResult.done.injEq] at hres
      exact absurd hres.1.symm hct2
    | success d s0 =>
      simp only [Option.map_some', Option.some_inj, bioCompressFinish] at hres
      split at hres
      · simp only [CompressResult.done.injEq] at hres
        exact absurd hres.1.symm hct2
      split at hres
      · simp at hres
      split at hres
      · simp at hres
      split at hres
      · simp at hres
      split at hres
      · simp at hres
      rename_i hnsm hc1 hc2 hc3 hc4
      simp only [CompressResult.done.injEq] at hres
      obtain ⟨hcte, hd2, hs2, hbytes⟩ := hres
      obtain ⟨hpos, hdval⟩ := compressLoop_success_inv f (blockBytes c)
        dst.biSize fuel src.biSize d s0 hl
      have hgl : (g s0).length = d := by rw [hg s0 hpos, hdval]
      have hdle : d ≤ roundUp d (blockBytes c) := le_roundUp d (blockBytes c)
      subst hd2
      subst hs2
      subst hbytes
      push_neg at hc1 hc2
      rw [not_not] at hc3 hc4
      refine ⟨by omega, by omega, hc3, by omega, by omega, hc4, ?_, ?_⟩
      · simp [hgl]
      · exact ⟨g s0, roundUp d (blockBytes c) - d, rfl, by rw [hgl],
          by rw [hgl]; omega⟩

set_option maxRecDepth 100000 in
/-- C5 witness: the theorem at block 512, a 1024-byte source and a codec
producing 512 bytes on the first attempt (padding 0, all invariants
concrete). -/
theorem c5_success_invariants_witness :
    0 < 512 ∧ 512 ≤ 1024 ∧ 512 % blockBytes ⟨1, 128, fun _ => true⟩ = 0 ∧
    0 < 1024 ∧ 1024 ≤ 1024 ∧ 1024 % blockBytes ⟨1, 128, fun _ => true⟩ = 0 ∧
    (List.replicate 512 7 ++ List.replicate 0 0).length = 512 ∧
    (∃ produced pad,
      List.replicate 512 7 ++ List.replicate 0 0 =
        produced ++ List.replicate pad 0 ∧
      produced.length + pad = 512 ∧
      512 = roundUp produced.length (blockBytes ⟨1, 128, fun _ => true⟩)) :=
  c5_success_invariants (fun _ _ => 512) (fun _ => List.replicate 512 7)
    ⟨1, 128, fun _ => true⟩ ⟨1024, 1, 8⟩ ⟨1024, 1, 8⟩ 0 0 4 1 4 512 1024
    (List.replicate 512 7 ++ List.replicate 0 0)
    (fun _ _ => by simp) (by decide) (by decide)

/- ---------------------------------------------------------------------
`bch2_bio_compress` (compress.c:441) and the zstd branch of
`attempt_compress` (compress.c:329).
--------------------------------------------------------------------- -/

/-- A legacy `BCH_COMPRESSION_LZ4_OLD` request is normalized to
`BCH_COMPRESSION_LZ4` before dispatch (compress.c:455). -/
def normCompressionType (ct : Nat) : Nat :=
  if ct = BCH_COMPRESSION_LZ4_OLD then BCH_COMPRESSION_LZ4 else ct

/-- Source clamp: don't consume more than `encoded_extent_max << 9` bytes
(compress.c:450). -/
def clampSrcBuf (c : FsConf) (src : BioState) : BioState :=
  { src with biSize := min src.biSize (c.encodedExtentMax * 512) }

/-- Destination clamp: don't generate a bigger output than the clamped
input (compress.c:453). -/
def clampDstBuf (dst srcClamped : BioState) : BioState :=
  { dst with biSize := min dst.biSize srcClamped.biSize }

/-- `bch2_bio_compress` (compress.c:441): save the original bio lengths,
clamp both, normalize the legacy LZ4 id, run `__bio_compress`, restore the
lengths.  The returned pair carries the two bios as the caller sees them
after the call. -/
def bch2BioCompress (f : Nat → Nat → Int) (g : Nat → List Nat) (c : FsConf)
    (dst src : BioState) (dstLenVar srcLenVar ct fuel : Nat) :
    Option (CompressResult × BioState × BioState) :=
  match bioCompress f g c (clampDstBuf dst (clampSrcBuf c src)) (clampSrcBuf c src)
      dstLenVar srcLenVar (normCompressionType ct) fuel with
  | none => none
  | some r =>
    some (r, { clampDstBuf dst (clampSrcBuf c src) with biSize := dst.biSize },
             { clampSrcBuf c src with biSize := src.biSize })

/-- C7: whenever `bch2_bio_compress` returns, the search was run on the
clamped buffers (source clamped to `encoded_extent_max << 9`, destination
to the clamped source length) under the normalized compression type, and
both bios carry their original lengths again, whatever the search's
outcome was. -/
theorem c7_clamp_and_restore (f : Nat → Nat → Int) (g : Nat → List Nat)
    (c : FsConf) (dst src : BioState) (dlv slv ct fuel : Nat)
    (r : CompressResult) (dstOut srcOut : BioState)
    (h : bch2BioCompress f g c dst src dlv slv ct fuel = some (r, dstOut, srcOut)) :
    dstOut = dst ∧ srcOut = src ∧
    bioCompress f g c (clampDstBuf dst (clampSrcBuf c src)) (clampSrcBuf c src)
      dlv slv (normCompressionType ct) fuel = some r := by
  obtain ⟨ds, dv, dm⟩ := dst
  obtain ⟨ss, sv, sm⟩ := src
  unfold bch2BioCompress at h
  cases hm : bioCompress f g c
      (clampDstBuf ⟨ds, dv, dm⟩ (clampSrcBuf c ⟨ss, sv, sm⟩))
      (clampSrcBuf c ⟨ss, sv, sm⟩) dlv slv (normCompressionType ct) fuel with
  | none => rw [hm] at h; cases h
  | some r0 =>
    rw [hm] at h
    simp only [clampDstBuf, clampSrcBuf, Option.some_inj, Prod.mk.injEq] at h
    obtain ⟨hr, hdo, hso⟩ := h
    subst hr
    exact ⟨hdo.symm, hso.symm, rfl⟩

/-- C7 witness: the theorem on a concrete call (one-block source, so the
search returns immediately); the caller's bios come back unchanged and the
inner call ran on the clamped buffers. -/
theorem c7_clamp_and_restore_witness :
    (⟨512, 1, 8⟩ : BioState) = ⟨512, 1, 8⟩ ∧
    (⟨512, 2, 4⟩ : BioState) = ⟨512, 2, 4⟩ ∧
    bioCompress (fun _ _ => 0) (fun _ => [])
      ⟨1, 128, fun _ => true⟩
      (clampDstBuf ⟨512, 1, 8⟩ (clampSrcBuf ⟨1, 128, fun _ => true⟩ ⟨512, 2, 4⟩))
      (clampSrcBuf ⟨1, 128, fun _ => true⟩ ⟨512, 2, 4⟩)
      11 13 (normCompressionType 1) 1 =
      some (CompressResult.done 0 11 13 []) :=
  c7_clamp_and_restore (fun _ _ => 0) (fun _ => []) ⟨1, 128, fun _ => true⟩
    ⟨512, 1, 8⟩ ⟨512, 2, 4⟩ 11 13 1 1 (CompressResult.done 0 11 13 [])
    ⟨512, 1, 8⟩ ⟨512, 2, 4⟩ (by decide)

/-- The zstd branch of `attempt_compress` (compress.c:329–342): the codec
writes the frame at `dst + 4` with budget `dst_len - 4`; on success the
subsystem stores the frame length as a 4-byte little-endian prefix at
`dst` and reports `len + 4`.  `zstdComp src budget` is the oracle for
`ZSTD_compressCCtx` (`none` = `ZSTD_isError`).  The result is the returned
`int` and the destination bytes that were written. -/
def attemptCompressZstd (zstdComp : List Nat → Nat → Option (List Nat))
    (src : List Nat) (dstLen : Nat) : Int × List Nat :=
  match zstdComp src (dstLen - 4) with
  | none => (0, [])
  | some frame => ((frame.length : Int) + 4, le32enc frame.length ++ frame)

theorem le32dec_le32enc (n : Nat) (h : n < 4294967296) :
    le32dec (le32enc n) = n := by
  show n % 256 + 256 * (n / 256 % 256) + 65536 * (n / 65536 % 256) +
      16777216 * (n / 16777216 % 256) = n
  omega

/-- The stored prefix of a framed payload decodes to the frame length. -/
theorem zstdStoredLen_framed (n : Nat) (rest : List Nat) (h : n < 4294967296) :
    zstdStoredLen (le32enc n ++ rest) = n := by
  have htake : (le32enc n ++ rest).take 4 = le32enc n := by
    simp [le32enc]
  rw [zstdStoredLen, htake]
  exact le32dec_le32enc n h

/-- C9: on a successful zstd attempt, the stored 4-byte little-endian
prefix equals the compressed frame length, the reported output length is
frame length + 4, and on the decompression side the stored prefix decodes
back to the frame length and the byte range handed to the zstd decoder is
exactly the frame — `src_len` bytes starting immediately after the
prefix — which also lies entirely within the payload. -/
theorem c9_zstd_framing (zstdComp : List Nat → Nat → Option (List Nat))
    (src : List Nat) (dstLen : Nat) (frame : List Nat)
    (hfr : zstdComp src (dstLen - 4) = some frame)
    (hlen : frame.length < 4294967296) :
    (attemptCompressZstd zstdComp src dstLen).1 = (frame.length : Int) + 4 ∧
    (attemptCompressZstd zstdComp src dstLen).2 = le32enc frame.length ++ frame ∧
    zstdStoredLen (le32enc frame.length ++ frame) = frame.length ∧
    zstdDecoderInput (le32enc frame.length ++ frame) = frame ∧
    4 + zstdStoredLen (le32enc frame.length ++ frame) =
      (le32enc frame.length ++ frame).length := by
  have hstored := zstdStoredLen_framed frame.length frame hlen
  have hdrop : (le32enc frame.length ++ frame).drop 4 = frame := by
    simp [le32enc]
  refine ⟨?_, ?_, hstored, ?_, ?_⟩
  · rw [attemptCompressZstd, hfr]
  · rw [attemptCompressZstd, hfr]
  · rw [zstdDecoderInput, hstored, hdrop, List.take_length]
  · rw [hstored, List.length_append]
    simp [le32enc]

/-- C9 witness: a concrete 3-byte frame `[10, 20, 30]` stored under prefix
`[3, 0, 0, 0]`, reported as length 7, recovered exactly by the decoder
input extraction. -/
theorem c9_zstd_framing_witness :
    (attemptCompressZstd (fun _ _ => some [10, 20, 30]) [1, 2] 100).1 =
      ((3 : Nat) : Int) + 4 ∧
    (attemptCompressZstd (fun _ _ => some [10, 20, 30]) [1, 2] 100).2 =
      le32enc 3 ++ [10, 20, 30] ∧
    zstdStoredLen (le32enc 3 ++ [10, 20, 30]) = 3 ∧
    zstdDecoderInput (le32enc 3 ++ [10, 20, 30]) = [10, 20, 30] ∧
    4 + zstdStoredLen (le32enc 3 ++ [10, 20, 30]) =
      (le32enc 3 ++ [10, 20, 30]).length :=
  c9_zstd_framing (fun _ _ => some [10, 20, 30]) [1, 2] 100 [10, 20, 30]
    (by decide) (by decide)

/- ---------------------------------------------------------------------
Feature gate (`__bch2_check_set_has_compressed_data`, compress.c:478).
--------------------------------------------------------------------- -/

/-- The state the gate touches: the in-memory cached feature bitset
`c->sb.features` and the on-disk-superblock image bitset
`c->disk_sb.sb->features[0]` (the durable feature bit lives there). -/
structure GateState where
  sbFeatures : Nat
  diskFeatures : Nat
deriving DecidableEq

/-- Observable events of one `__bch2_check_set_has_compressed_data` call,
in program order. -/
inductive GateEv
  | lockSb
  | unlockSb
  | poolInit (features : Nat) (ok : Bool)
  | setDiskBit (f : Nat)
  | writeSuper (ok : Bool)
deriving DecidableEq

/-- Modelled from the spec: `bch2_write_super` (super-io.c, not among this
tree's sources) forces the synchronous metadata flush and refreshes the
in-memory cached superblock fields from the disk image.  The spec treats
the flush as fallible, so the model gives it an outcome `flushOk`; the
call site in compress.c discards that outcome. -/
def writeSuper (flushOk : Bool) (s : GateState) : GateState :=
  if flushOk then { s with sbFeatures := s.diskFeatures } else s

/-- `__bch2_check_set_has_compressed_data` (compress.c:478).  `initOk` is
the outcome of `__bch2_fs_compress_init` (lazy pool creation,
compress.c:527, which fails only through `mempool_init_*` allocation) and
`flushOk` the outcome of the metadata flush.  Returns the C return value,
the final state and the event trace.  The double-check after taking the
lock re-reads the same state in this single-thread model. -/
def checkSetHasCompressedData (initOk flushOk : Bool) (s : GateState) (f : Nat) :
    Int × GateState × List GateEv :=
  -- if ((c->sb.features & f) == f) return 0;
  if s.sbFeatures &&& f = f then (0, s, [])
  -- mutex_lock(&c->sb_lock); if ((c->sb.features & f) == f) { unlock; return 0; }
  else if s.sbFeatures &&& f = f then (0, s, [GateEv.lockSb, GateEv.unlockSb])
  -- ret = __bch2_fs_compress_init(c, c->sb.features|f);
  -- if (ret) { mutex_unlock(&c->sb_lock); return ret; }
  else if initOk = false then
    (-12, s, [GateEv.lockSb, GateEv.poolInit (s.sbFeatures ||| f) false,
              GateEv.unlockSb])
  -- c->disk_sb.sb->features[0] |= cpu_to_le64(f);
  -- bch2_write_super(c); mutex_unlock(&c->sb_lock); return 0;
  else
    (0, writeSuper flushOk { s with diskFeatures := s.diskFeatures ||| f },
     [GateEv.lockSb, GateEv.poolInit (s.sbFeatures ||| f) true,
      GateEv.setDiskBit f, GateEv.writeSuper flushOk, GateEv.unlockSb])

/-- C2 (counterexample): a failing metadata flush is not surfaced and does
not keep the feature bit unset.  Activating feature bit 1 on a fresh state
with the flush failing still returns 0 and leaves the durable bit set: the
call site sets the disk bit before flushing and ignores the flush
outcome. -/
theorem c2_flush_failure_not_surfaced :
    (checkSetHasCompressedData true false ⟨0, 0⟩ 1).1 = 0 ∧
    (checkSetHasCompressedData true false ⟨0, 0⟩ 1).2.1.diskFeatures &&& 1 = 1 := by
  decide

/-- C2 (amended): when the feature bit is not yet set, the activation
trace is exactly lock → pool initialization → durable-bit set → flush →
unlock (so the pools exist before the bit is set and the flush is issued
before the lock is released), and a pool-initialization failure returns an
error with the state — in particular the durable feature bit — unchanged.
A flush failure, however, is not surfaced: the call still returns 0 with
the bit set (the flush outcome is discarded), as the counterexample pins
down. -/
theorem c2_gate_ordering (initOk flushOk : Bool) (s : GateState) (f : Nat)
    (hns : ¬ s.sbFeatures &&& f = f) :
    (initOk = true →
      (checkSetHasCompressedData initOk flushOk s f).2.2 =
        [GateEv.lockSb, GateEv.poolInit (s.sbFeatures ||| f) true,
         GateEv.setDiskBit f, GateEv.writeSuper flushOk, GateEv.unlockSb] ∧
      (checkSetHasCompressedData initOk flushOk s f).1 = 0 ∧
      (checkSetHasCompressedData initOk flushOk s f).2.1.diskFeatures =
        s.diskFeatures ||| f) ∧
    (initOk = false →
      (checkSetHasCompressedData initOk flushOk s f).1 = -12 ∧
      (checkSetHasCompressedData initOk flushOk s f).2.1 = s ∧
      (checkSetHasCompressedData initOk flushOk s f).2.2 =
        [GateEv.lockSb, GateEv.poolInit (s.sbFeatures ||| f) false,
         GateEv.unlockSb]) := by
  cases initOk with
  | false =>
    refine ⟨fun h => Bool.noConfusion h, fun _ => ?_⟩
    simp [checkSetHasCompressedData, hns]
  | true =>
    refine ⟨fun _ => ?_, fun h => Bool.noConfusion h⟩
    cases flushOk with
    | true => simp [checkSetHasCompressedData, writeSuper, hns]
    | false => simp [checkSetHasCompressedData, writeSuper, hns]

/-- C2 witness: the amended theorem at a fresh state, feature bit 1, with
pool initialization and flush both succeeding. -/
theorem c2_gate_ordering_witness :
    ((true : Bool) = true →
      (checkSetHasCompressedData true true ⟨0, 0⟩ 1).2.2 =
        [GateEv.lockSb, GateEv.poolInit (0 ||| 1) true, GateEv.setDiskBit 1,
         GateEv.writeSuper true, GateEv.unlockSb] ∧
      (checkSetHasCompressedData true true ⟨0, 0⟩ 1).1 = 0 ∧
      (checkSetHasCompressedData true true ⟨0, 0⟩ 1).2.1.diskFeatures = 0 ||| 1) ∧
    ((true : Bool) = false →
      (checkSetHasCompressedData true true ⟨0, 0⟩ 1).1 = -12 ∧
      (checkSetHasCompressedData true true ⟨0, 0⟩ 1).2.1 = ⟨0, 0⟩ ∧
      (checkSetHasCompressedData true true ⟨0, 0⟩ 1).2.2 =
        [GateEv.lockSb, GateEv.poolInit (0 ||| 1) false, GateEv.unlockSb]) :=
  c2_gate_ordering true true ⟨0, 0⟩ 1 (by decide)
